import Mathlib

/-! Shallow embedding of `src/files/kubical/AWS-generate_k3s_config.py`,
a script that derives a K3s node-bootstrap configuration from EC2
instance metadata and tags.  Python strings are modelled as Lean
`String`s (both are sequences of Unicode code points); the string
operations the script uses (`split`, `replace`, `startswith`, slicing,
`list.sort`) are given explicit executable definitions below with the
same semantics as their Python counterparts. -/

/-- Lexicographic (code-point) comparison of two character lists:
`leCL a b` is true iff string `a` compares less-or-equal to `b`, exactly
as Python compares `str` values (by code points, a strict prefix sorting
first). -/
def leCL : List Char → List Char → Bool
  | [], _ => true
  | _ :: _, [] => false
  | a :: as, b :: bs =>
      if a.toNat < b.toNat then true
      else if b.toNat < a.toNat then false
      else leCL as bs

/-- String less-or-equal, Python `str` ordering. -/
def leStr (a b : String) : Bool := leCL a.data b.data

/-- Insert a string into a (sorted) list, keeping ascending order. -/
def insertSorted (x : String) : List String → List String
  | [] => [x]
  | y :: ys => if leStr x y then x :: y :: ys else y :: insertSorted x ys

/-- Ascending sort of a string list; models Python `list.sort()` on a
list of `str` (same ordering, and `list.sort` only reorders elements). -/
def sortStrings : List String → List String
  | [] => []
  | x :: xs => insertSorted x (sortStrings xs)

/-- Decidable check that a list of strings is ascending (each element
less-or-equal to the next) in Python string order. -/
def sortedAscB : List String → Bool
  | [] => true
  | [_] => true
  | x :: y :: rest => leStr x y && sortedAscB (y :: rest)

/-- Character-list version of `startswith`. -/
def isPrefixCL : List Char → List Char → Bool
  | [], _ => true
  | _ :: _, [] => false
  | a :: as, b :: bs => a = b && isPrefixCL as bs

/-- Python `s.startswith(t)`. -/
def strStartsWith (s t : String) : Bool := isPrefixCL t.data s.data

/-- Python slicing `s[n:]` (drop the first `n` code points). -/
def strDrop (s : String) (n : Nat) : String := String.mk (s.data.drop n)

/-- Python `s.replace("::", "/")`: scan left to right, replacing each
non-overlapping occurrence of `::` by `/`.  The script applies this to
every tag key before testing its prefix. -/
def replaceDColon : List Char → List Char
  | ':' :: ':' :: rest => '/' :: replaceDColon rest
  | c :: rest => c :: replaceDColon rest
  | [] => []

/-- Tag-key normalization used in the tag loop of `generate_k3s_config`:
`tag.replace("::", "/")`. -/
def normalizeTagKey (k : String) : String := String.mk (replaceDColon k.data)

/-- Python `s.split('.')` on the character list: splitting on a single
character always yields at least one (possibly empty) part. -/
def splitDot : List Char → List (List Char)
  | [] => [[]]
  | c :: cs =>
      if c = '.' then [] :: splitDot cs
      else
        match splitDot cs with
        | h :: t => (c :: h) :: t
        | [] => [[c]]

/-- Python `instance_type.split('.')` as a list of strings. -/
def split_dot (s : String) : List String := (splitDot s.data).map String.mk

/-- Python truthiness of an optional string (`if public_ipv4:`):
`None` and the empty string are falsy, any other string truthy. -/
def pyStrTruthy : Option String → Bool
  | none => false
  | some s => !s.data.isEmpty

/-- The `arch_map` dictionary of `get_arch`. -/
def arch_map : List (String × String) :=
  [("x86_64", "amd64"), ("aarch64", "arm64"), ("armv7l", "arm")]

/-- `get_arch` from the script: normalized architecture name.  The raw
`platform.machine()` value is passed in as `machine`; the script returns
`arch_map.get(machine, machine)`. -/
def get_arch (machine : String) : String :=
  (arch_map.lookup machine).getD machine

/-- `parse_instance_type` from the script: split the instance type on
`.`; if exactly two parts result, return them, else `(input, "unknown")`. -/
def parse_instance_type (instance_type : String) : String × String :=
  match split_dot instance_type with
  | [a, b] => (a, b)
  | _ => (instance_type, "unknown")

/-- `get_capacity_type` from the script.  The `ec2_metadata.instance_life_cycle`
attribute access is modelled by its outcome: `none` means the access
raised (the `except` branch), `some v` means it returned the optional
string `v`.  The script returns `'spot' if lifecycle == 'spot' else
'on-demand'`, and `'on-demand'` from the handler. -/
def get_capacity_type (life_cycle : Option (Option String)) : String :=
  match life_cycle with
  | none => "on-demand"
  | some lifecycle => if lifecycle = some "spot" then "spot" else "on-demand"

/-- Outcome of one boto3 EC2 API call: a successful response, a
`botocore` `ClientError` (the type the script catches selectively), or
any other exception. -/
inductive CallResult (α : Type) where
  | ok (value : α)
  | clientError (msg : String)
  | otherError (msg : String)
deriving DecidableEq

/-- The `Association` dictionary of a network interface as used by the
script: `assoc.get('PublicIp')` and `'AllocationId' in assoc`. -/
structure IfaceAssoc where
  publicIp : Option String
  hasAllocationId : Bool
deriving DecidableEq

/-- One entry of `instance['NetworkInterfaces']`; `association = none`
models a missing `Association` key (`iface.get('Association', {})`). -/
structure NetworkInterface where
  association : Option IfaceAssoc
deriving DecidableEq

/-- One entry of `response['Reservations']`, carrying its `Instances`. -/
structure Reservation where
  instances : List (List NetworkInterface)
deriving DecidableEq

/-- Responses of the EC2 client for the two calls `is_elastic_ip` can
make.  `describeAddresses` is the response to
`describe_addresses(PublicIps=[public_ip])`, holding the (opaque)
`Addresses` entries; `describeInstancesEip` is the response to
`describe_instances(InstanceIds=[instance_id])`.  (`boto3.client`
itself performs no lookup and is modelled as always succeeding.) -/
structure Ec2Env where
  describeAddresses : CallResult (List String)
  describeInstancesEip : CallResult (List Reservation)
deriving DecidableEq

/-- Trace entry recording that `is_elastic_ip` invoked the cloud
collaborator. -/
inductive Ec2Call where
  | describeAddresses (publicIp : String)
  | describeInstances (instanceId : String)
deriving DecidableEq

/-- The loop over `instance.get('NetworkInterfaces', [])`: return, for
the FIRST interface whose association's `PublicIp` equals the queried
ip, whether that association carries an `AllocationId`; `none` when no
interface matches (the loop falls through). -/
def findAssoc (publicIp : String) : List NetworkInterface → Option Bool
  | [] => none
  | iface :: rest =>
      match iface.association with
      | some a =>
          if a.publicIp = some publicIp then some a.hasAllocationId
          else findAssoc publicIp rest
      | none => findAssoc publicIp rest

/-- Method 2 of `is_elastic_ip` (lines 85–101): look at the instance's
network interfaces.  Empty `Reservations` returns `False`; a missing
`Instances[0]` raises and is caught by the outer handler (`False`); a
`ClientError` or other exception from `describe_instances` propagates to
the outer handler (`False`). -/
def eipMethod2 (env : Ec2Env) (instance_id ip : String)
    (calls : List Ec2Call) : Bool × List Ec2Call :=
  let calls := calls ++ [Ec2Call.describeInstances instance_id]
  match env.describeInstancesEip with
  | .ok reservations =>
      match reservations with
      | [] => (false, calls)
      | r :: _ =>
          match r.instances with
          | [] => (false, calls)
          | ifaces :: _ => ((findAssoc ip ifaces).getD false, calls)
  | .clientError _ => (false, calls)
  | .otherError _ => (false, calls)

/-- `is_elastic_ip` from the script, with an explicit trace of the
collaborator calls it makes.  `if not public_ip: return False` fires for
`None` and for the empty string.  Method 1: a non-empty `Addresses`
response means `True`; a `ClientError` is caught (whether or not it is
`InvalidAddress.NotFound`) and execution falls through to method 2; any
other exception reaches the outer handler and yields `False`. -/
def is_elastic_ip (env : Ec2Env) (instance_id : String)
    (public_ip : Option String) (region : String) : Bool × List Ec2Call :=
  match public_ip with
  | none => (false, [])
  | some ip =>
      if ip.data.isEmpty then (false, [])
      else
        match env.describeAddresses with
        | .ok addrs =>
            if !addrs.isEmpty then (true, [Ec2Call.describeAddresses ip])
            else eipMethod2 env instance_id ip [Ec2Call.describeAddresses ip]
        | .clientError _ => eipMethod2 env instance_id ip [Ec2Call.describeAddresses ip]
        | .otherError _ => (false, [Ec2Call.describeAddresses ip])

/-- A value of the config dictionary: the script stores booleans and
lists of strings. -/
inductive ConfigValue where
  | bool (b : Bool)
  | list (items : List String)
deriving DecidableEq

/-- The config dictionary, as an insertion-ordered association list
(Python 3 dicts preserve insertion order; the script only ever adds
fresh keys). -/
abbrev Config := List (String × ConfigValue)

/-- Dictionary access `config[k]` (keys are unique in the script). -/
def configLookup : Config → String → Option ConfigValue
  | [], _ => none
  | kv :: rest, k => if kv.1 = k then some kv.2 else configLookup rest k

/-- Apply the final loop of `generate_k3s_config`:
`for k, v in config.items(): if type(v) is list: v.sort()` — sort every
list value in place, leave booleans untouched. -/
def sortVal : ConfigValue → ConfigValue
  | .list l => .list (sortStrings l)
  | .bool b => .bool b

/-- The final in-place sorting pass over the config dictionary. -/
def sortConfigLists (c : Config) : Config :=
  c.map (fun kv => (kv.1, sortVal kv.2))

/-- The projection of a config to its boolean-valued fields, in order;
used to state that the final sorting pass leaves non-list fields alone. -/
def boolEntries (c : Config) : List (String × Bool) :=
  c.filterMap (fun kv =>
    match kv.2 with
    | .bool b => some (kv.1, b)
    | .list _ => none)

/-- The four core identity facts of the instance whose fetch is the
script's only fatal failure point. -/
structure CoreIdentity where
  instance_id : String
  availability_zone : String
  region : String
  instance_type : String
deriving DecidableEq

/-- The static `kube-apiserver-arg` list of the config literal
(lines 134–141). -/
def kube_apiserver_args : List String :=
  ["admission-control-config-file=/var/lib/rancher/k3s/server/psa.yaml",
   "audit-log-path=/var/lib/rancher/k3s/server/logs/audit.log",
   "audit-policy-file=/var/lib/rancher/k3s/server/audit.yaml",
   "audit-log-maxage=30",
   "audit-log-maxbackup=10",
   "audit-log-maxsize=100"]

/-- The `kubelet-arg` list of the config literal (lines 142–148):
the provider-id entry plus four static entries. -/
def kubelet_args (provider_id : String) : List String :=
  ["provider-id=" ++ provider_id,
   "max-pods=110",
   "kube-reserved=cpu=100m,memory=500Mi",
   "system-reserved=cpu=100m,memory=500Mi",
   "eviction-hard=memory.available<100Mi,nodefs.available<10%"]

/-- The `node-label` list of the config literal (lines 149–162). -/
def base_node_labels (cid : CoreIdentity)
    (instance_family instance_size capacity_type arch : String) : List String :=
  ["topology.kubernetes.io/region=" ++ cid.region,
   "topology.kubernetes.io/zone=" ++ cid.availability_zone,
   "node.kubernetes.io/instance-type=" ++ cid.instance_type,
   "node.kubernetes.io/instance-family=" ++ instance_family,
   "node.kubernetes.io/instance-size=" ++ instance_size,
   "karpenter.sh/capacity-type=" ++ capacity_type,
   "kubernetes.io/arch=" ++ arch,
   "kubernetes.io/os=linux",
   "failure-domain.beta.kubernetes.io/region=" ++ cid.region,
   "failure-domain.beta.kubernetes.io/zone=" ++ cid.availability_zone,
   "beta.kubernetes.io/instance-type=" ++ cid.instance_type]

/-- Python `list.insert(n, a)`: insert before position `n`, clamping to
the end when `n` exceeds the length. -/
def insertAt (n : Nat) (a : String) (l : List String) : List String :=
  l.take n ++ a :: l.drop n

/-- The tag loop of `generate_k3s_config` (lines 177–187): for each tag
in dict order, normalize the key (`:: → /`); a `label/`-prefixed key
appends `{rest}={value}` to a label list, a `taint/`-prefixed key
appends `{rest}={value}` to the taints list, anything else does
nothing.  Returns (labels appended to `node-label`, taints), each in
iteration order. -/
def processTags : List (String × String) → List String × List String
  | [] => ([], [])
  | kv :: rest =>
      let t := normalizeTagKey kv.1
      let r := processTags rest
      if strStartsWith t "label/" then ((strDrop t 6 ++ "=" ++ kv.2) :: r.1, r.2)
      else if strStartsWith t "taint/" then (r.1, (strDrop t 6 ++ "=" ++ kv.2) :: r.2)
      else r

/-- Line 127 of the script:
`is_eip = is_elastic_ip(instance_id, public_ipv4, region) if public_ipv4 else False`
— the elastic-IP check, guarded by the truthiness of the public IP, with
its collaborator-call trace (`[]` when the guard short-circuits). -/
def eip_guard (cid : CoreIdentity) (public_ipv4 : Option String)
    (eenv : Ec2Env) : Bool × List Ec2Call :=
  if pyStrTruthy public_ipv4 then
    is_elastic_ip eenv cid.instance_id public_ipv4 cid.region
  else (false, [])

/-- The `node-label` list as it stands after lines 149–187 (base labels,
conditional public-ip labels inserted at positions 5 and 6, conditional
punchkicker-role label, labels appended by the tag loop), before the
final sort. -/
def node_labels_unsorted (cid : CoreIdentity) (public_ipv4 : Option String)
    (machine : String) (life_cycle : Option (Option String)) (eenv : Ec2Env)
    (instance_tags : List (String × String)) : List String :=
  let arch := get_arch machine
  let fs := parse_instance_type cid.instance_type
  let capacity_type := get_capacity_type life_cycle
  let is_eip := (eip_guard cid public_ipv4 eenv).1
  let labels0 := base_node_labels cid fs.1 fs.2 capacity_type arch
  let labels1 :=
    match public_ipv4 with
    | some ip =>
        if ip.data.isEmpty then labels0
        else
          insertAt 6 ("cylzae.com/public-ip-type=" ++
              (if is_eip then "elastic" else "ephemeral"))
            (insertAt 5 ("cylzae.com/public-ip=" ++ ip) labels0)
    | none => labels0
  let labels2 :=
    match instance_tags.lookup "punchkicker-role" with
    | some role_value => labels1 ++ ["cylzae.com/punchkicker-role=" ++ role_value]
    | none => labels1
  labels2 ++ (processTags instance_tags).1

/-- The body of `generate_k3s_config` after the metadata fetches
succeeded, up to — but not including — the final sorting pass, paired
with the trace of elastic-IP collaborator calls.  Inputs model the
fetched snapshots: `public_ipv4 = none` models both a missing public IP
and the inner `except` at lines 117–120; `machine` is
`platform.machine()`; `life_cycle` is the outcome of the
`instance_life_cycle` access (see `get_capacity_type`); `instance_tags`
is the tag dictionary in insertion order.

Note: the config dict literal in the source (lines 131–163) is missing
a comma after the `kube-apiserver-arg` list (line 141), which makes the
Python file a SyntaxError; the literal is transcribed here with that
comma restored, the evident intent. -/
def build_config_unsorted (cid : CoreIdentity) (public_ipv4 : Option String)
    (machine : String) (life_cycle : Option (Option String)) (eenv : Ec2Env)
    (instance_tags : List (String × String)) : Config × List Ec2Call :=
  let provider_id := "aws://" ++ cid.availability_zone ++ "/" ++ cid.instance_id
  let labels := node_labels_unsorted cid public_ipv4 machine life_cycle eenv instance_tags
  let taints := (processTags instance_tags).2
  let config0 : Config :=
    [("protect-kernel-defaults", .bool true),
     ("secrets-encryption", .bool true),
     ("kube-apiserver-arg", .list kube_apiserver_args),
     ("kubelet-arg", .list (kubelet_args provider_id)),
     ("node-label", .list labels)]
  let config1 := if taints.isEmpty then config0
                 else config0 ++ [("node-taint", .list taints)]
  (config1, (eip_guard cid public_ipv4 eenv).2)

/-- `generate_k3s_config` on successful metadata fetches: the config
built above with every list value sorted by the final pass, paired with
the elastic-IP collaborator call trace. -/
def generate_k3s_config (cid : CoreIdentity) (public_ipv4 : Option String)
    (machine : String) (life_cycle : Option (Option String)) (eenv : Ec2Env)
    (instance_tags : List (String × String)) : Config × List Ec2Call :=
  let bc := build_config_unsorted cid public_ipv4 machine life_cycle eenv instance_tags
  (sortConfigLists bc.1, bc.2)

/-- Observable outcome of one run of the script (`main`): the config
document printed to stdout (if any), the diagnostics printed to stderr
by the fatal handler, and the process exit code. -/
structure RunOutcome where
  emitted : Option Config
  fatalDiagnostics : List String
  exitCode : Nat
deriving DecidableEq

/-- The whole program: `main` calling `generate_k3s_config`.  The four
core identity fetches (lines 111–114) are the only statements in the
`try` block that can raise (every other lookup catches its own
failures); their joint outcome is the `identity` argument.  On failure
the handler (lines 198–201) prints two diagnostics to stderr and calls
`sys.exit(1)`, so nothing is printed to stdout; on success `main` dumps
the config to stdout and the process exits 0. -/
def run_program (identity : Except String CoreIdentity)
    (public_ipv4 : Option String) (machine : String)
    (life_cycle : Option (Option String)) (eenv : Ec2Env)
    (instance_tags : List (String × String)) : RunOutcome :=
  match identity with
  | .error e =>
      { emitted := none,
        fatalDiagnostics :=
          ["Error fetching EC2 metadata: " ++ e,
           "Make sure you're running on an EC2 instance with IMDSv2 enabled."],
        exitCode := 1 }
  | .ok cid =>
      { emitted := some (generate_k3s_config cid public_ipv4 machine
          life_cycle eenv instance_tags).1,
        fatalDiagnostics := [],
        exitCode := 0 }

/-- Decidable witness that two character lists disagree at some common
position (so neither extends the other from that point on). -/
def mismatchCL : List Char → List Char → Bool
  | p :: ps, l :: ls => decide (p ≠ l) || mismatchCL ps ls
  | _, _ => false

/-- Decidable check that the config's `node-label` list contains a given
string. -/
def configHasLabel (c : Config) (s : String) : Bool :=
  match configLookup c "node-label" with
  | some (.list l) => l.contains s
  | _ => false

/-- Concrete instance identity used to instantiate the claims. -/
def cidW : CoreIdentity := ⟨"i-abc", "us-east-1a", "us-east-1", "m5.large"⟩

/-- Concrete quiescent EC2 environment (no allocated addresses, no
reservations). -/
def envW : Ec2Env := ⟨.ok [], .ok []⟩

/-- Concrete environment whose address lookup raises a non-ClientError. -/
def envC4 : Ec2Env := ⟨.otherError "boom", .ok []⟩

/-- An interface matching 1.2.3.4 without an allocation id. -/
def ifaceNoAlloc : NetworkInterface := ⟨some ⟨some "1.2.3.4", false⟩⟩

/-- An interface matching 1.2.3.4 with an allocation id. -/
def ifaceWithAlloc : NetworkInterface := ⟨some ⟨some "1.2.3.4", true⟩⟩

/-- Environment where only the SECOND matching interface carries an
allocation id. -/
def envC10 : Ec2Env := ⟨.ok [], .ok [⟨[[ifaceNoAlloc, ifaceWithAlloc]]⟩]⟩

/-- Tags used to instantiate the tag-processing rules. -/
def tagsW : List (String × String) := [("label/foo", "bar"), ("taint::special", "x")]

theorem leCL_total (a b : List Char) : leCL a b = true ∨ leCL b a = true := by
  induction a generalizing b with
  | nil => left; rfl
  | cons x xs ih =>
    cases b with
    | nil => right; rfl
    | cons y ys =>
      by_cases h1 : x.toNat < y.toNat
      · left; simp [leCL, h1]
      · by_cases h2 : y.toNat < x.toNat
        · right; simp [leCL, h2]
        · cases ih ys with
          | inl h => left; simp [leCL, h1, h2, h]
          | inr h => right; simp [leCL, h1, h2, h]

theorem leStr_total_of_not (x y : String) (h : leStr x y = false) :
    leStr y x = true := by
  rcases leCL_total x.data y.data with h1 | h1
  · rw [leStr] at h; rw [h] at h1; exact absurd h1 (by simp)
  · exact h1

theorem insertSorted_perm (x : String) (l : List String) :
    List.Perm (insertSorted x l) (x :: l) := by
  induction l with
  | nil => simp [insertSorted]
  | cons y ys ih =>
    simp only [insertSorted]
    by_cases h : leStr x y = true
    · simp [h]
    · rw [if_neg h]
      exact (List.Perm.cons y ih).trans (List.Perm.swap x y ys)

theorem sortStrings_perm (l : List String) : List.Perm (sortStrings l) l := by
  induction l with
  | nil => simp [sortStrings]
  | cons x xs ih =>
    exact (insertSorted_perm x (sortStrings xs)).trans (List.Perm.cons x ih)

theorem mem_sortStrings (a : String) (l : List String) :
    a ∈ sortStrings l ↔ a ∈ l := (sortStrings_perm l).mem_iff

theorem count_sortStrings (a : String) (l : List String) :
    List.count a (sortStrings l) = List.count a l :=
  (sortStrings_perm l).count_eq a

theorem sortedAscB_cons_iff (y : String) (l : List String) :
    sortedAscB (y :: l) = true ↔
      (sortedAscB l = true ∧ ∀ z, l.head? = some z → leStr y z = true) := by
  cases l with
  | nil => simp [sortedAscB]
  | cons z zs =>
    simp only [sortedAscB, Bool.and_eq_true, List.head?]
    constructor
    · rintro ⟨h1, h2⟩
      exact ⟨h2, fun w hw => by injection hw with hw; rw [← hw]; exact h1⟩
    · rintro ⟨h1, h2⟩
      exact ⟨h2 z rfl, h1⟩

theorem insertSorted_head (x : String) (l : List String) :
    (insertSorted x l).head? = some x ∨ (insertSorted x l).head? = l.head? := by
  cases l with
  | nil => left; rfl
  | cons y ys =>
    simp only [insertSorted]
    by_cases h : leStr x y = true
    · left; rw [if_pos h]; rfl
    · right; rw [if_neg h]; rfl

theorem sortedAscB_insertSorted (x : String) (l : List String)
    (h : sortedAscB l = true) : sortedAscB (insertSorted x l) = true := by
  induction l with
  | nil => rfl
  | cons y ys ih =>
    rcases (sortedAscB_cons_iff y ys).mp h with ⟨hys, hhead⟩
    simp only [insertSorted]
    by_cases hxy : leStr x y = true
    · rw [if_pos hxy]
      exact (sortedAscB_cons_iff x (y :: ys)).mpr
        ⟨h, fun z hz => by injection hz with hz; rw [← hz]; exact hxy⟩
    · rw [if_neg hxy]
      have hyx : leStr y x = true := leStr_total_of_not x y (by
        cases hv : leStr x y
        · rfl
        · exact absurd hv hxy)
      refine (sortedAscB_cons_iff y (insertSorted x ys)).mpr ⟨ih hys, ?_⟩
      intro z hz
      rcases insertSorted_head x ys with h1 | h1
      · rw [h1] at hz; injection hz with hz; rw [← hz]; exact hyx
      · rw [h1] at hz; exact hhead z hz

theorem sortedAscB_sortStrings (l : List String) :
    sortedAscB (sortStrings l) = true := by
  induction l with
  | nil => rfl
  | cons x xs ih => exact sortedAscB_insertSorted x (sortStrings xs) ih

theorem configLookup_sortConfigLists (c : Config) (k : String) :
    configLookup (sortConfigLists c) k = (configLookup c k).map sortVal := by
  induction c with
  | nil => rfl
  | cons kv rest ih =>
    simp only [sortConfigLists, List.map, configLookup]
    by_cases h : kv.1 = k
    · rw [if_pos h, if_pos h]; rfl
    · rw [if_neg h, if_neg h]; exact ih

theorem configLookup_append (c d : Config) (k : String) :
    configLookup (c ++ d) k =
      match configLookup c k with
      | some v => some v
      | none => configLookup d k := by
  induction c with
  | nil => rfl
  | cons kv rest ih =>
    simp only [List.cons_append, configLookup]
    by_cases h : kv.1 = k
    · rw [if_pos h, if_pos h]
    · rw [if_neg h, if_neg h]; exact ih

theorem boolEntries_sortConfigLists (c : Config) :
    boolEntries (sortConfigLists c) = boolEntries c := by
  induction c with
  | nil => rfl
  | cons kv rest ih =>
    cases kv with
    | mk k v =>
      cases v with
      | bool b =>
        simp only [sortConfigLists, List.map_cons, boolEntries,
          List.filterMap_cons, sortVal]
        exact congrArg (List.cons (k, b)) ih
      | list l =>
        simp only [sortConfigLists, List.map_cons, boolEntries,
          List.filterMap_cons, sortVal]
        exact ih

theorem keys_sortConfigLists (c : Config) :
    (sortConfigLists c).map Prod.fst = c.map Prod.fst := by
  induction c with
  | nil => rfl
  | cons kv rest ih => simp [sortConfigLists, ih]

theorem isPrefixCL_self_append (p v : List Char) :
    isPrefixCL p (p ++ v) = true := by
  induction p with
  | nil => rfl
  | cons a as ih => simp [isPrefixCL, ih]

theorem append_ne_of_not_startsWith (p v t : String)
    (h : isPrefixCL p.data t.data = false) : p ++ v ≠ t := by
  intro he
  have h2 : isPrefixCL p.data t.data = true := by
    rw [← he]
    exact isPrefixCL_self_append p.data v.data
  rw [h2] at h
  exact absurd h (by simp)

theorem isPrefixCL_append_eq_false (pre lit v : List Char)
    (h : mismatchCL pre lit = true) : isPrefixCL pre (lit ++ v) = false := by
  induction pre generalizing lit with
  | nil => simp [mismatchCL] at h
  | cons p ps ih =>
    cases lit with
    | nil => simp [mismatchCL] at h
    | cons l ls =>
      simp only [mismatchCL, Bool.or_eq_true, decide_eq_true_eq] at h
      simp only [List.cons_append, isPrefixCL]
      rcases h with h | h
      · simp [h]
      · simp [ih ls h]

theorem mem_insertAt_self (n : Nat) (a : String) (l : List String) :
    a ∈ insertAt n a l := by
  simp [insertAt]

theorem mem_insertAt_of_mem (n : Nat) (a b : String) (l : List String)
    (h : b ∈ l) : b ∈ insertAt n a l := by
  rw [← List.take_append_drop n l] at h
  rcases List.mem_append.mp h with h1 | h1
  · exact List.mem_append.mpr (Or.inl h1)
  · exact List.mem_append.mpr (Or.inr (List.mem_cons_of_mem a h1))

theorem mem_of_mem_insertAt (n : Nat) (a b : String) (l : List String)
    (h : b ∈ insertAt n a l) : b = a ∨ b ∈ l := by
  rcases List.mem_append.mp h with h1 | h1
  · exact Or.inr (List.mem_of_mem_take h1)
  · rcases List.mem_cons.mp h1 with h2 | h2
    · exact Or.inl h2
    · exact Or.inr (List.mem_of_mem_drop h2)

theorem processTags_cons_skip (k v : String) (tags : List (String × String))
    (h1 : strStartsWith (normalizeTagKey k) "label/" = false)
    (h2 : strStartsWith (normalizeTagKey k) "taint/" = false) :
    processTags ((k, v) :: tags) = processTags tags := by
  simp [processTags, h1, h2]

theorem mem_processTags_label (tags : List (String × String))
    (kv : String × String) (hmem : kv ∈ tags)
    (h : strStartsWith (normalizeTagKey kv.1) "label/" = true) :
    (strDrop (normalizeTagKey kv.1) 6 ++ "=" ++ kv.2) ∈ (processTags tags).1 := by
  induction tags with
  | nil => cases hmem
  | cons hd tl ih =>
    rcases List.mem_cons.mp hmem with rfl | hmem'
    · simp [processTags, h]
    · simp only [processTags]
      by_cases ha : strStartsWith (normalizeTagKey hd.1) "label/" = true
      · simp only [ha, if_pos]
        exact List.mem_cons_of_mem _ (ih hmem')
      · rw [if_neg (by simpa using ha)]
        by_cases hb : strStartsWith (normalizeTagKey hd.1) "taint/" = true
        · rw [if_pos hb]
          exact ih hmem'
        · rw [if_neg (by simpa using hb)]
          exact ih hmem'

theorem mem_processTags_taint (tags : List (String × String))
    (kv : String × String) (hmem : kv ∈ tags)
    (h : strStartsWith (normalizeTagKey kv.1) "taint/" = true) :
    (strDrop (normalizeTagKey kv.1) 6 ++ "=" ++ kv.2) ∈ (processTags tags).2 := by
  induction tags with
  | nil => cases hmem
  | cons hd tl ih =>
    rcases List.mem_cons.mp hmem with rfl | hmem'
    · by_cases ha : strStartsWith (normalizeTagKey kv.1) "label/" = true
      · -- a key cannot start with both "label/" and "taint/"
        exact absurd h (by
          cases hk : (normalizeTagKey kv.1).data with
          | nil => rw [strStartsWith, hk] at ha; exact absurd ha (by decide)
          | cons c cs =>
            rw [strStartsWith, hk] at ha ⊢
            have hc : c = 'l' := by
              by_contra hne
              simp only [isPrefixCL, Bool.and_eq_true, decide_eq_true_eq] at ha
              exact hne ha.1.symm
            subst hc
            simp [isPrefixCL])
      · simp only [processTags]
        rw [if_neg (by simpa using ha), if_pos h]
        exact List.mem_cons_self _ _
    · simp only [processTags]
      by_cases ha : strStartsWith (normalizeTagKey hd.1) "label/" = true
      · rw [if_pos ha]
        exact ih hmem'
      · rw [if_neg (by simpa using ha)]
        by_cases hb : strStartsWith (normalizeTagKey hd.1) "taint/" = true
        · rw [if_pos hb]
          exact List.mem_cons_of_mem _ (ih hmem')
        · rw [if_neg (by simpa using hb)]
          exact ih hmem'

theorem configLookup_build_all (cid : CoreIdentity) (pub : Option String)
    (machine : String) (lc : Option (Option String)) (eenv : Ec2Env)
    (tags : List (String × String)) :
    configLookup (build_config_unsorted cid pub machine lc eenv tags).1
        "protect-kernel-defaults" = some (.bool true) ∧
    configLookup (build_config_unsorted cid pub machine lc eenv tags).1
        "secrets-encryption" = some (.bool true) ∧
    configLookup (build_config_unsorted cid pub machine lc eenv tags).1
        "kube-apiserver-arg" = some (.list kube_apiserver_args) ∧
    configLookup (build_config_unsorted cid pub machine lc eenv tags).1
        "kubelet-arg" = some (.list (kubelet_args
          ("aws://" ++ cid.availability_zone ++ "/" ++ cid.instance_id))) ∧
    configLookup (build_config_unsorted cid pub machine lc eenv tags).1
        "node-label" = some (.list (node_labels_unsorted cid pub machine lc eenv tags)) ∧
    configLookup (build_config_unsorted cid pub machine lc eenv tags).1
        "node-taint" = (if (processTags tags).2.isEmpty then none
                        else some (.list (processTags tags).2)) := by
  by_cases h : (processTags tags).2.isEmpty = true
  · simp only [build_config_unsorted, if_pos h, h]
    exact ⟨rfl, rfl, rfl, rfl, rfl, rfl⟩
  · simp only [build_config_unsorted, if_neg h, if_neg h]
    exact ⟨rfl, rfl, rfl, rfl, rfl, rfl⟩

theorem count_provider_kubelet (pid : String) :
    List.count ("provider-id=" ++ pid) (kubelet_args pid) = 1 := by
  have h1 : "provider-id=" ++ pid ≠ "max-pods=110" :=
    append_ne_of_not_startsWith _ _ _ (by decide)
  have h2 : "provider-id=" ++ pid ≠ "kube-reserved=cpu=100m,memory=500Mi" :=
    append_ne_of_not_startsWith _ _ _ (by decide)
  have h3 : "provider-id=" ++ pid ≠ "system-reserved=cpu=100m,memory=500Mi" :=
    append_ne_of_not_startsWith _ _ _ (by decide)
  have h4 : "provider-id=" ++ pid ≠
      "eviction-hard=memory.available<100Mi,nodefs.available<10%" :=
    append_ne_of_not_startsWith _ _ _ (by decide)
  simp [kubelet_args, List.count_cons, h1, h2, h3, h4]

theorem no_public_label_in_base (cid : CoreIdentity)
    (fs1 fs2 ct arch s : String)
    (h : s ∈ base_node_labels cid fs1 fs2 ct arch) :
    strStartsWith s "cylzae.com/public-ip" = false := by
  simp only [base_node_labels, List.mem_cons, List.not_mem_nil, or_false] at h
  rcases h with rfl | rfl | rfl | rfl | rfl | rfl | rfl | rfl | rfl | rfl | rfl
  · exact isPrefixCL_append_eq_false _ _ _ (by decide)
  · exact isPrefixCL_append_eq_false _ _ _ (by decide)
  · exact isPrefixCL_append_eq_false _ _ _ (by decide)
  · exact isPrefixCL_append_eq_false _ _ _ (by decide)
  · exact isPrefixCL_append_eq_false _ _ _ (by decide)
  · exact isPrefixCL_append_eq_false _ _ _ (by decide)
  · exact isPrefixCL_append_eq_false _ _ _ (by decide)
  · decide
  · exact isPrefixCL_append_eq_false _ _ _ (by decide)
  · exact isPrefixCL_append_eq_false _ _ _ (by decide)
  · exact isPrefixCL_append_eq_false _ _ _ (by decide)

theorem sortConfigLists_sorted (c : Config) :
    ∀ kv ∈ sortConfigLists c, ∀ l, kv.2 = ConfigValue.list l →
      sortedAscB l = true := by
  intro kv hkv l hl
  rcases List.mem_map.mp hkv with ⟨kv0, _, rfl⟩
  cases hv : kv0.2 with
  | bool b =>
      rw [show ((kv0.1, sortVal kv0.2).2 = sortVal kv0.2) from rfl, hv] at hl
      exact absurd hl (by simp [sortVal])
  | list l0 =>
      rw [show ((kv0.1, sortVal kv0.2).2 = sortVal kv0.2) from rfl, hv] at hl
      simp only [sortVal] at hl
      cases hl
      exact sortedAscB_sortStrings l0

theorem eipMethod2_true (env : Ec2Env) (instance_id ip : String)
    (calls : List Ec2Call)
    (h : (eipMethod2 env instance_id ip calls).1 = true) :
    ∃ (r : Reservation) (rs : List Reservation)
      (ifaces : List NetworkInterface) (insts : List (List NetworkInterface)),
      env.describeInstancesEip = CallResult.ok (r :: rs) ∧
      r.instances = ifaces :: insts ∧ findAssoc ip ifaces = some true := by
  cases hd : env.describeInstancesEip with
  | ok reservations =>
      cases reservations with
      | nil => simp [eipMethod2, hd] at h
      | cons r rs =>
          cases hi : r.instances with
          | nil => simp [eipMethod2, hd, hi] at h
          | cons ifaces insts =>
              cases hf : findAssoc ip ifaces with
              | none => simp [eipMethod2, hd, hi, hf] at h
              | some b =>
                  cases b with
                  | false => simp [eipMethod2, hd, hi, hf] at h
                  | true => exact ⟨r, rs, ifaces, insts, rfl, hi, hf⟩
  | clientError msg => simp [eipMethod2, hd] at h
  | otherError msg => simp [eipMethod2, hd] at h

/-- C6: if resolution of the core instance identity fails, the process
prints a diagnostic to stderr and exits with code 1, emitting no config
document (not even a partial one) to stdout. -/
theorem c6_fatal_identity_failure :
    ∀ (e : String) (pub : Option String) (machine : String)
      (lc : Option (Option String)) (eenv : Ec2Env)
      (tags : List (String × String)),
      run_program (Except.error e) pub machine lc eenv tags =
        { emitted := none,
          fatalDiagnostics :=
            ["Error fetching EC2 metadata: " ++ e,
             "Make sure you're running on an EC2 instance with IMDSv2 enabled."],
          exitCode := 1 } := by
  intro e pub machine lc eenv tags
  rfl

/-- C7: `get_capacity_type` returns on-demand whenever the lifecycle
lookup raises or is absent, returns spot exactly when the lookup returns
the string spot, and on-demand for every other returned value. -/
theorem c7_capacity_type_classification :
    get_capacity_type none = "on-demand" ∧
    get_capacity_type (some none) = "on-demand" ∧
    (∀ v : Option String, get_capacity_type (some v) = "spot" ↔ v = some "spot") ∧
    (∀ v : Option String, v ≠ some "spot" →
      get_capacity_type (some v) = "on-demand") := by
  refine ⟨rfl, rfl, ?_, ?_⟩
  · intro v
    constructor
    · intro hv
      by_cases h : v = some "spot"
      · exact h
      · rw [show get_capacity_type (some v) =
            if v = some "spot" then "spot" else "on-demand" from rfl,
          if_neg h] at hv
        exact absurd hv (by decide)
    · intro hv
      rw [show get_capacity_type (some v) =
          if v = some "spot" then "spot" else "on-demand" from rfl, if_pos hv]
  · intro v h
    rw [show get_capacity_type (some v) =
        if v = some "spot" then "spot" else "on-demand" from rfl, if_neg h]

theorem c7_capacity_type_classification_witness :
    get_capacity_type (some (some "on-demand")) = "on-demand" ∧
    get_capacity_type (some (some "spot")) = "spot" :=
  ⟨c7_capacity_type_classification.2.2.2 (some "on-demand") (by decide),
   (c7_capacity_type_classification.2.2.1 (some "spot")).mpr rfl⟩

/-- C8: `get_arch` maps x86_64 to amd64, aarch64 to arm64, armv7l to
arm, and returns every other machine string unchanged. -/
theorem c8_arch_normalization :
    get_arch "x86_64" = "amd64" ∧ get_arch "aarch64" = "arm64" ∧
    get_arch "armv7l" = "arm" ∧
    ∀ m : String, m ≠ "x86_64" → m ≠ "aarch64" → m ≠ "armv7l" →
      get_arch m = m := by
  refine ⟨rfl, rfl, rfl, ?_⟩
  intro m h1 h2 h3
  have b1 : (m == "x86_64") = false := beq_eq_false_iff_ne.mpr h1
  have b2 : (m == "aarch64") = false := beq_eq_false_iff_ne.mpr h2
  have b3 : (m == "armv7l") = false := beq_eq_false_iff_ne.mpr h3
  simp [get_arch, arch_map, List.lookup, b1, b2, b3]

theorem c8_arch_normalization_witness : get_arch "riscv64" = "riscv64" :=
  c8_arch_normalization.2.2.2 "riscv64" (by decide) (by decide) (by decide)

/-- C9: `parse_instance_type` returns the two parts when splitting on
`.` yields exactly two, and `(input, "unknown")` otherwise. -/
theorem c9_instance_type_split :
    (∀ s a b : String, split_dot s = [a, b] →
        parse_instance_type s = (a, b)) ∧
    (∀ s : String, (split_dot s).length ≠ 2 →
        parse_instance_type s = (s, "unknown")) := by
  constructor
  · intro s a b h
    unfold parse_instance_type
    rw [h]
  · intro s h
    unfold parse_instance_type
    split
    · rename_i a b heq
      rw [heq] at h
      simp at h
    · rfl

theorem c9_instance_type_split_witness :
    split_dot "m5.large" = ["m5", "large"] ∧
    parse_instance_type "m5.large" = ("m5", "large") ∧
    (split_dot "c5a.x.y").length ≠ 2 ∧
    parse_instance_type "c5a.x.y" = ("c5a.x.y", "unknown") :=
  ⟨by decide, c9_instance_type_split.1 "m5.large" "m5" "large" (by decide),
   by decide, c9_instance_type_split.2 "c5a.x.y" (by decide)⟩

/-- C4: `is_elastic_ip` returns false (with no collaborator call) when
the public IP is absent; returns false when the address lookup raises a
non-ClientError; and returns true only when one of the two lookup
methods yields a positive — so any failure or absence of a positive
yields false, never an exception. -/
theorem c4_elastic_ip_fail_open :
    ∀ (env : Ec2Env) (instance_id region : String),
      (∀ ip : Option String, pyStrTruthy ip = false →
          is_elastic_ip env instance_id ip region = (false, [])) ∧
      (∀ ip msg : String, env.describeAddresses = CallResult.otherError msg →
          (is_elastic_ip env instance_id (some ip) region).1 = false) ∧
      (∀ ip : String, (is_elastic_ip env instance_id (some ip) region).1 = true →
          (∃ addrs, env.describeAddresses = CallResult.ok addrs ∧
            addrs.isEmpty = false) ∨
          (∃ (r : Reservation) (rs : List Reservation)
             (ifaces : List NetworkInterface)
             (insts : List (List NetworkInterface)),
             env.describeInstancesEip = CallResult.ok (r :: rs) ∧
             r.instances = ifaces :: insts ∧
             findAssoc ip ifaces = some true)) := by
  intro env instance_id region
  refine ⟨?_, ?_, ?_⟩
  · intro ip h
    cases ip with
    | none => rfl
    | some s =>
        simp only [pyStrTruthy, Bool.not_eq_false'] at h
        simp [is_elastic_ip, h]
  · intro ip msg h
    cases hv : ip.data.isEmpty
    · simp [is_elastic_ip, hv, h]
    · simp [is_elastic_ip, hv]
  · intro ip htrue
    cases hv : ip.data.isEmpty with
    | true => simp [is_elastic_ip, hv] at htrue
    | false =>
        cases hda : env.describeAddresses with
        | ok addrs =>
            cases hae : addrs.isEmpty with
            | false => exact Or.inl ⟨addrs, rfl, hae⟩
            | true =>
                have h2 : (eipMethod2 env instance_id ip
                    [Ec2Call.describeAddresses ip]).1 = true := by
                  simpa [is_elastic_ip, hv, hda, hae] using htrue
                exact Or.inr (eipMethod2_true env instance_id ip _ h2)
        | clientError msg =>
            have h2 : (eipMethod2 env instance_id ip
                [Ec2Call.describeAddresses ip]).1 = true := by
              simpa [is_elastic_ip, hv, hda] using htrue
            exact Or.inr (eipMethod2_true env instance_id ip _ h2)
        | otherError msg => simp [is_elastic_ip, hv, hda] at htrue

theorem c4_elastic_ip_fail_open_witness :
    is_elastic_ip envC4 "i-1" none "us-east-1" = (false, []) ∧
    (is_elastic_ip envC4 "i-1" (some "1.2.3.4") "us-east-1").1 = false :=
  ⟨(c4_elastic_ip_fail_open envC4 "i-1" "us-east-1").1 none rfl,
   (c4_elastic_ip_fail_open envC4 "i-1" "us-east-1").2.1 "1.2.3.4" "boom" rfl⟩

/-- C10: in the network-interface fallback, the first interface whose
association matches the queried IP decides the result (its
`AllocationId` presence), independently of all later interfaces; so
with no method-1 positive the overall result equals the first matching
association's allocation flag. -/
theorem c10_first_matching_iface_decides :
    (∀ (ip : String) (iface : NetworkInterface)
       (rest : List NetworkInterface) (a : IfaceAssoc),
       iface.association = some a → a.publicIp = some ip →
       findAssoc ip (iface :: rest) = some a.hasAllocationId) ∧
    (∀ (env : Ec2Env) (instance_id ip region : String) (r : Reservation)
       (rs : List Reservation) (ifaces : List NetworkInterface)
       (insts : List (List NetworkInterface)) (b : Bool),
       ip.data.isEmpty = false →
       env.describeAddresses = CallResult.ok [] →
       env.describeInstancesEip = CallResult.ok (r :: rs) →
       r.instances = ifaces :: insts →
       findAssoc ip ifaces = some b →
       (is_elastic_ip env instance_id (some ip) region).1 = b) := by
  constructor
  · intro ip iface rest a ha hip
    simp [findAssoc, ha, hip]
  · intro env instance_id ip region r rs ifaces insts b hv hda hdi hi hf
    simp [is_elastic_ip, hv, hda, eipMethod2, hdi, hi, hf]

theorem c10_first_matching_iface_decides_witness :
    ifaceWithAlloc.association = some ⟨some "1.2.3.4", true⟩ ∧
    (is_elastic_ip envC10 "i-1" (some "1.2.3.4") "us-east-1").1 = false :=
  ⟨rfl,
   c10_first_matching_iface_decides.2 envC10 "i-1" "1.2.3.4" "us-east-1"
     ⟨[[ifaceNoAlloc, ifaceWithAlloc]]⟩ [] [ifaceNoAlloc, ifaceWithAlloc] []
     false (by decide) rfl rfl rfl (by decide)⟩

/-- C1: the config of every successful run carries the two fixed
boolean baseline fields, the fixed six-entry apiserver argument list
(shown here in its sorted emitted form), and a kubelet argument list
that is exactly the provider-id entry `provider-id=aws://{az}/{id}`
(occurring once) plus the four fixed kubelet arguments.  Stated over the
embedded derivation with the missing comma of source line 141 restored
(as written, that dict literal is a SyntaxError and the script cannot
run at all). -/
theorem c1_baseline_config_fields :
    ∀ (cid : CoreIdentity) (pub : Option String) (machine : String)
      (lc : Option (Option String)) (eenv : Ec2Env)
      (tags : List (String × String)),
      configLookup (generate_k3s_config cid pub machine lc eenv tags).1
          "protect-kernel-defaults" = some (.bool true) ∧
      configLookup (generate_k3s_config cid pub machine lc eenv tags).1
          "secrets-encryption" = some (.bool true) ∧
      configLookup (generate_k3s_config cid pub machine lc eenv tags).1
          "kube-apiserver-arg" = some (.list
            ["admission-control-config-file=/var/lib/rancher/k3s/server/psa.yaml",
             "audit-log-maxage=30", "audit-log-maxbackup=10",
             "audit-log-maxsize=100",
             "audit-log-path=/var/lib/rancher/k3s/server/logs/audit.log",
             "audit-policy-file=/var/lib/rancher/k3s/server/audit.yaml"]) ∧
      configLookup (generate_k3s_config cid pub machine lc eenv tags).1
          "kubelet-arg" = some (.list (sortStrings (kubelet_args
            ("aws://" ++ cid.availability_zone ++ "/" ++ cid.instance_id)))) ∧
      List.Perm
        (sortStrings (kubelet_args
          ("aws://" ++ cid.availability_zone ++ "/" ++ cid.instance_id)))
        (kubelet_args
          ("aws://" ++ cid.availability_zone ++ "/" ++ cid.instance_id)) ∧
      List.count
        ("provider-id=" ++
          ("aws://" ++ cid.availability_zone ++ "/" ++ cid.instance_id))
        (sortStrings (kubelet_args
          ("aws://" ++ cid.availability_zone ++ "/" ++ cid.instance_id))) = 1 := by
  intro cid pub machine lc eenv tags
  have hb := configLookup_build_all cid pub machine lc eenv tags
  have hgen : (generate_k3s_config cid pub machine lc eenv tags).1
      = sortConfigLists (build_config_unsorted cid pub machine lc eenv tags).1 := rfl
  refine ⟨?_, ?_, ?_, ?_, sortStrings_perm _, ?_⟩
  · rw [hgen, configLookup_sortConfigLists, hb.1]; rfl
  · rw [hgen, configLookup_sortConfigLists, hb.2.1]; rfl
  · rw [hgen, configLookup_sortConfigLists, hb.2.2.1]; decide
  · rw [hgen, configLookup_sortConfigLists, hb.2.2.2.1]; rfl
  · rw [count_sortStrings]
    exact count_provider_kubelet _

/-- C2: every list-valued field of the emitted config is sorted
ascending, and the final sorting pass changes neither the boolean
fields nor the key sequence. -/
theorem c2_list_fields_sorted :
    ∀ (cid : CoreIdentity) (pub : Option String) (machine : String)
      (lc : Option (Option String)) (eenv : Ec2Env)
      (tags : List (String × String)),
      (∀ kv ∈ (generate_k3s_config cid pub machine lc eenv tags).1,
         ∀ l, kv.2 = ConfigValue.list l → sortedAscB l = true) ∧
      boolEntries (generate_k3s_config cid pub machine lc eenv tags).1 =
        boolEntries (build_config_unsorted cid pub machine lc eenv tags).1 ∧
      (generate_k3s_config cid pub machine lc eenv tags).1.map Prod.fst =
        (build_config_unsorted cid pub machine lc eenv tags).1.map Prod.fst := by
  intro cid pub machine lc eenv tags
  exact ⟨fun kv hkv l hl => sortConfigLists_sorted _ kv hkv l hl,
    boolEntries_sortConfigLists _, keys_sortConfigLists _⟩

theorem c2_list_fields_sorted_witness :
    sortedAscB
      ["eviction-hard=memory.available<100Mi,nodefs.available<10%",
       "kube-reserved=cpu=100m,memory=500Mi", "max-pods=110",
       "provider-id=aws://us-east-1a/i-abc",
       "system-reserved=cpu=100m,memory=500Mi"] = true :=
  (c2_list_fields_sorted cidW none "x86_64" none envW []).1
    ("kubelet-arg", ConfigValue.list
      ["eviction-hard=memory.available<100Mi,nodefs.available<10%",
       "kube-reserved=cpu=100m,memory=500Mi", "max-pods=110",
       "provider-id=aws://us-east-1a/i-abc",
       "system-reserved=cpu=100m,memory=500Mi"]) (by decide) _ rfl

theorem public_ip_labels_mem (cid : CoreIdentity) (ip machine : String)
    (lc : Option (Option String)) (eenv : Ec2Env)
    (tags : List (String × String)) (hne : ip.data.isEmpty = false) :
    ("cylzae.com/public-ip=" ++ ip) ∈
      node_labels_unsorted cid (some ip) machine lc eenv tags ∧
    ("cylzae.com/public-ip-type=" ++
      (if (is_elastic_ip eenv cid.instance_id (some ip) cid.region).1
       then "elastic" else "ephemeral")) ∈
      node_labels_unsorted cid (some ip) machine lc eenv tags := by
  have hguard : eip_guard cid (some ip) eenv =
      is_elastic_ip eenv cid.instance_id (some ip) cid.region := by
    simp [eip_guard, pyStrTruthy, hne]
  constructor
  · simp only [node_labels_unsorted, hguard]
    apply List.mem_append_left
    cases hr : List.lookup "punchkicker-role" tags with
    | some rv =>
        apply List.mem_append_left
        simp only [hne]
        rw [if_neg (by simp)]
        exact mem_insertAt_of_mem 6 _ _ _ (mem_insertAt_self 5 _ _)
    | none =>
        simp only [hne]
        rw [if_neg (by simp)]
        exact mem_insertAt_of_mem 6 _ _ _ (mem_insertAt_self 5 _ _)
  · simp only [node_labels_unsorted, hguard]
    apply List.mem_append_left
    cases hr : List.lookup "punchkicker-role" tags with
    | some rv =>
        apply List.mem_append_left
        simp only [hne]
        rw [if_neg (by simp)]
        exact mem_insertAt_self 6 _ _
    | none =>
        simp only [hne]
        rw [if_neg (by simp)]
        exact mem_insertAt_self 6 _ _

theorem no_public_label_without_ip (cid : CoreIdentity) (pub : Option String)
    (machine : String) (lc : Option (Option String)) (eenv : Ec2Env)
    (tags : List (String × String)) (hfalsy : pyStrTruthy pub = false) :
    ∀ s, s ∈ node_labels_unsorted cid pub machine lc eenv tags →
      strStartsWith s "cylzae.com/public-ip" = true →
      s ∈ (processTags tags).1 := by
  intro s hs hpre
  cases pub with
  | none =>
      simp only [node_labels_unsorted] at hs
      rcases List.mem_append.mp hs with h1 | h1
      · exfalso
        rcases hlook : List.lookup "punchkicker-role" tags with _ | rv <;>
          simp only [hlook] at h1
        · exact absurd hpre (by simp [no_public_label_in_base _ _ _ _ _ _ h1])
        · rcases List.mem_append.mp h1 with h2 | h2
          · exact absurd hpre
              (by simp [no_public_label_in_base _ _ _ _ _ _ h2])
          · rcases List.mem_cons.mp h2 with rfl | h3
            · exact absurd hpre
                (by simp [show strStartsWith
                    ("cylzae.com/punchkicker-role=" ++ rv)
                    "cylzae.com/public-ip" = false from
                  isPrefixCL_append_eq_false _ _ _ (by decide)])
            · cases h3
      · exact h1
  | some ip =>
      have hie : ip.data.isEmpty = true := by
        simpa [pyStrTruthy, Bool.not_eq_false'] using hfalsy
      simp only [node_labels_unsorted, hie, eq_self_iff_true, if_true] at hs
      rcases List.mem_append.mp hs with h1 | h1
      · exfalso
        rcases hlook : List.lookup "punchkicker-role" tags with _ | rv <;>
          simp only [hlook] at h1
        · exact absurd hpre (by simp [no_public_label_in_base _ _ _ _ _ _ h1])
        · rcases List.mem_append.mp h1 with h2 | h2
          · exact absurd hpre
              (by simp [no_public_label_in_base _ _ _ _ _ _ h2])
          · rcases List.mem_cons.mp h2 with rfl | h3
            · exact absurd hpre
                (by simp [show strStartsWith
                    ("cylzae.com/punchkicker-role=" ++ rv)
                    "cylzae.com/public-ip" = false from
                  isPrefixCL_append_eq_false _ _ _ (by decide)])
            · cases h3
      · exact h1

/-- C3 counterexample: the tag key `punchkicker-role` matches neither
the `label/` nor the `taint/` prefix after normalization, yet it does
contribute to the config — the dedicated step at lines 172–175 appends
the label `cylzae.com/punchkicker-role={value}` — so "keys matching
neither prefix contribute nothing" fails as stated. -/
theorem c3_counterexample_role_tag :
    strStartsWith (normalizeTagKey "punchkicker-role") "label/" = false ∧
    strStartsWith (normalizeTagKey "punchkicker-role") "taint/" = false ∧
    configHasLabel (generate_k3s_config cidW none "x86_64" none envW
      [("punchkicker-role", "worker")]).1
      "cylzae.com/punchkicker-role=worker" = true ∧
    (generate_k3s_config cidW none "x86_64" none envW
        [("punchkicker-role", "worker")]).1 ≠
      (generate_k3s_config cidW none "x86_64" none envW []).1 := by
  exact ⟨by decide, by decide, by decide, by decide⟩

/-- C3 (amended): normalized `label/`-prefixed tags each contribute
`{rest}={value}` to the node-label list, `taint/`-prefixed tags each
contribute `{rest}={value}` to the collected taints, `node-taint` is
present iff at least one taint was collected and then equals the sorted
taint list, and a tag key matching neither prefix contributes nothing —
EXCEPT the dedicated key `punchkicker-role`, which a separate step turns
into the label `cylzae.com/punchkicker-role={value}`. -/
theorem c3_tag_prefix_rules :
    ∀ (cid : CoreIdentity) (pub : Option String) (machine : String)
      (lc : Option (Option String)) (eenv : Ec2Env)
      (tags : List (String × String)),
      configLookup (generate_k3s_config cid pub machine lc eenv tags).1
          "node-label" = some (.list (sortStrings
            (node_labels_unsorted cid pub machine lc eenv tags))) ∧
      (∀ kv ∈ tags, strStartsWith (normalizeTagKey kv.1) "label/" = true →
        (strDrop (normalizeTagKey kv.1) 6 ++ "=" ++ kv.2) ∈
          sortStrings (node_labels_unsorted cid pub machine lc eenv tags)) ∧
      (∀ kv ∈ tags, strStartsWith (normalizeTagKey kv.1) "taint/" = true →
        (strDrop (normalizeTagKey kv.1) 6 ++ "=" ++ kv.2) ∈
          (processTags tags).2) ∧
      configLookup (generate_k3s_config cid pub machine lc eenv tags).1
          "node-taint" = (if (processTags tags).2.isEmpty then none
            else some (.list (sortStrings (processTags tags).2))) ∧
      (∀ k v : String, strStartsWith (normalizeTagKey k) "label/" = false →
        strStartsWith (normalizeTagKey k) "taint/" = false →
        k ≠ "punchkicker-role" →
        generate_k3s_config cid pub machine lc eenv ((k, v) :: tags) =
          generate_k3s_config cid pub machine lc eenv tags) := by
  intro cid pub machine lc eenv tags
  have hb := configLookup_build_all cid pub machine lc eenv tags
  have hgen : (generate_k3s_config cid pub machine lc eenv tags).1
      = sortConfigLists (build_config_unsorted cid pub machine lc eenv tags).1 := rfl
  refine ⟨?_, ?_, ?_, ?_, ?_⟩
  · rw [hgen, configLookup_sortConfigLists, hb.2.2.2.2.1]; rfl
  · intro kv hmem hpre
    rw [mem_sortStrings]
    simp only [node_labels_unsorted]
    exact List.mem_append_right _ (mem_processTags_label tags kv hmem hpre)
  · intro kv hmem hpre
    exact mem_processTags_taint tags kv hmem hpre
  · rw [hgen, configLookup_sortConfigLists, hb.2.2.2.2.2]
    by_cases h : (processTags tags).2.isEmpty = true
    · rw [if_pos h, if_pos h]; rfl
    · rw [if_neg h, if_neg h]; rfl
  · intro k v h1 h2 h3
    have hpt : processTags ((k, v) :: tags) = processTags tags :=
      processTags_cons_skip k v tags h1 h2
    have hbeq : ("punchkicker-role" == k) = false :=
      beq_eq_false_iff_ne.mpr (Ne.symm h3)
    have hlk : List.lookup "punchkicker-role" ((k, v) :: tags)
        = List.lookup "punchkicker-role" tags := by
      simp [List.lookup, hbeq]
    simp only [generate_k3s_config, build_config_unsorted,
      node_labels_unsorted, hpt, hlk]

theorem c3_tag_prefix_rules_witness :
    "foo=bar" ∈ sortStrings (node_labels_unsorted cidW none "x86_64" none envW tagsW) ∧
    "special=x" ∈ (processTags tagsW).2 ∧
    configLookup (generate_k3s_config cidW none "x86_64" none envW tagsW).1
      "node-taint" = some (.list ["special=x"]) := by
  have h := c3_tag_prefix_rules cidW none "x86_64" none envW tagsW
  refine ⟨h.2.1 ("label/foo", "bar") (by decide) (by decide),
    h.2.2.1 ("taint::special", "x") (by decide) (by decide),
    h.2.2.2.1.trans (by decide)⟩

/-- C5 counterexample: with NO public IPv4 at all, a `label/`-prefixed
tag can still put a `cylzae.com/public-ip-type` label into the config,
so "the config contains neither label" fails as stated on adversarial
tag maps. -/
theorem c5_counterexample_injected_label :
    configHasLabel (generate_k3s_config cidW none "x86_64" none envW
      [("label/cylzae.com::public-ip-type", "elastic")]).1
      "cylzae.com/public-ip-type=elastic" = true := by
  decide

/-- C5 (amended): when a (truthy) public IPv4 exists, the node-label
list contains `cylzae.com/public-ip={ip}` and a
`cylzae.com/public-ip-type` label whose value is `elastic` iff the
elastic-IP check is positive and `ephemeral` otherwise; when no public
IPv4 exists, the elastic-IP collaborator is never invoked and the
derivation itself adds no `cylzae.com/public-ip*` label — any such
label in the config can only come from an explicit `label/`-prefixed
tag. -/
theorem c5_public_ip_labels :
    ∀ (cid : CoreIdentity) (pub : Option String) (machine : String)
      (lc : Option (Option String)) (eenv : Ec2Env)
      (tags : List (String × String)),
      configLookup (generate_k3s_config cid pub machine lc eenv tags).1
          "node-label" = some (.list (sortStrings
            (node_labels_unsorted cid pub machine lc eenv tags))) ∧
      (∀ ip : String, pub = some ip → ip.data.isEmpty = false →
        ("cylzae.com/public-ip=" ++ ip) ∈
          sortStrings (node_labels_unsorted cid pub machine lc eenv tags) ∧
        ("cylzae.com/public-ip-type=" ++
          (if (is_elastic_ip eenv cid.instance_id (some ip) cid.region).1
           then "elastic" else "ephemeral")) ∈
          sortStrings (node_labels_unsorted cid pub machine lc eenv tags)) ∧
      (pyStrTruthy pub = false →
        (generate_k3s_config cid pub machine lc eenv tags).2 = [] ∧
        ∀ s, s ∈ sortStrings (node_labels_unsorted cid pub machine lc eenv tags) →
          strStartsWith s "cylzae.com/public-ip" = true →
          s ∈ (processTags tags).1) := by
  intro cid pub machine lc eenv tags
  have hb := configLookup_build_all cid pub machine lc eenv tags
  have hgen : (generate_k3s_config cid pub machine lc eenv tags).1
      = sortConfigLists (build_config_unsorted cid pub machine lc eenv tags).1 := rfl
  refine ⟨?_, ?_, ?_⟩
  · rw [hgen, configLookup_sortConfigLists, hb.2.2.2.2.1]; rfl
  · intro ip hpub hne
    subst hpub
    have hm := public_ip_labels_mem cid ip machine lc eenv tags hne
    exact ⟨(mem_sortStrings _ _).mpr hm.1, (mem_sortStrings _ _).mpr hm.2⟩
  · intro hfalsy
    constructor
    · show (eip_guard cid pub eenv).2 = []
      simp [eip_guard, hfalsy]
    · intro s hs hpre
      exact no_public_label_without_ip cid pub machine lc eenv tags hfalsy s
        ((mem_sortStrings _ _).mp hs) hpre

theorem c5_public_ip_labels_witness :
    "cylzae.com/public-ip=1.2.3.4" ∈ sortStrings
      (node_labels_unsorted cidW (some "1.2.3.4") "x86_64" none envW []) ∧
    "cylzae.com/public-ip-type=ephemeral" ∈ sortStrings
      (node_labels_unsorted cidW (some "1.2.3.4") "x86_64" none envW []) := by
  have h := (c5_public_ip_labels cidW (some "1.2.3.4") "x86_64" none envW
    []).2.1 "1.2.3.4" rfl (by decide)
  exact ⟨h.1, h.2⟩

